import Mathlib

/-!
Verification of the discordia membership accounting core.

The development shallowly embeds the Rust core of the repository:
the ledger primitive (`eris-accounting/src/transactions.rs`), the fee
engine (`eris-accounting/src/member_fees.rs`), and the bank import
engine (`eris-banking/src/bank_transaction.rs`), over an explicit
in-memory database state standing for the SQL storage layer.

Embedding conventions:
* chrono `NaiveDate` is embedded as `Date` (year, month, day) with the
  lexicographic order; `with_day(1)` is `Date.withDay1`,
  `checked_add_months` / `checked_sub_months` are `Date.addMonthsI`.
* monetary `f64` values are embedded as exact rationals (`Rat`); the
  core only adds, subtracts and compares 2-decimal amounts.
* the database connection is an explicit record `Db` of rows; `insert`
  appends a row, `update` replaces the rows with the same id, `query`
  filters, `retrieve` is `List.find?`.
* `async` effects and persistence errors are dropped: every storage
  call in the embedded fragment succeeds except member retrieval by id,
  which is an `Option` resolved through the `Db` state.
-/

namespace Discordia

/-- Calendar date, embedding chrono `NaiveDate` (year, month, day). -/
structure Date where
  year : Int
  month : Nat
  day : Nat
deriving DecidableEq, Repr

/-- Lexicographic strict order on dates, the `<` of `NaiveDate`. -/
def Date.lt (a b : Date) : Bool :=
  decide (a.year < b.year) ||
    (decide (a.year = b.year) &&
      (decide (a.month < b.month) ||
        (decide (a.month = b.month) && decide (a.day < b.day))))

/-- Lexicographic order on dates, the `<=` of `NaiveDate`. -/
def Date.le (a b : Date) : Bool :=
  decide (a.year < b.year) ||
    (decide (a.year = b.year) &&
      (decide (a.month < b.month) ||
        (decide (a.month = b.month) && decide (a.day ≤ b.day))))

/-- Rust `date.with_day(1).unwrap()`: align a date to the first of its month. -/
def Date.withDay1 (d : Date) : Date :=
  { d with day := 1 }

/-- Month counter used to relate month arithmetic to the order. -/
def Date.monthIndex (d : Date) : Int :=
  d.year * 12 + d.month - 1

/-- chrono `checked_add_months` / `checked_sub_months` (signed month shift).
The core only shifts dates already aligned to the first of the month, so no
day clamping is needed. -/
def Date.addMonthsI (d : Date) (n : Int) : Date :=
  let t : Int := d.year * 12 + d.month - 1 + n
  { year := t.ediv 12, month := (t.emod 12).toNat + 1, day := d.day }

/-- Rust `std::cmp::max` on dates (`Ord::max`: the second argument wins ties). -/
def maxDate (a b : Date) : Date :=
  if Date.le a b then b else a

/-- chrono `NaiveDate::default()`, the epoch 1970-01-01. -/
def Date.epoch : Date :=
  ⟨1970, 1, 1⟩

/-- Member row (`eris-data` `Member`, with the billing and bank watermarks
used by the accounting and banking crates). -/
structure Member where
  id : Nat
  name : String
  email : String
  notes : String
  membership_start : Date
  membership_end : Option Date
  fee : Rat
  interval : Nat
  last_payment : Date
  account : Rat
  account_calculated_at : Date
  last_bank_transaction_at : Date
  last_bank_transaction_number : Nat
deriving DecidableEq, Repr

/-- Ledger entry (`eris-data` `Transaction`). -/
structure Transaction where
  id : Nat
  member_id : Nat
  date : Date
  account_name : String
  amount : Rat
  description : String
deriving DecidableEq, Repr

/-- Rust `Transaction::default()`. -/
def Transaction.default : Transaction :=
  ⟨0, 0, Date.epoch, "", 0, ""⟩

/-- Bank import rule (`eris-data` `BankImportRule`). -/
structure BankImportRule where
  member_id : Nat
  iban : String
  split_amount : Option Rat
  match_subject : Option String
deriving DecidableEq, Repr

/-- Normalized incoming bank statement line (`eris-banking` `BankTransaction`). -/
structure BankTransaction where
  num : Nat
  date : Date
  name : String
  iban : String
  amount : Rat
  subject : String
deriving DecidableEq, Repr

/-- Global application state row (`eris-data` `State`). -/
structure State where
  accounts_calculated_at : Date
deriving DecidableEq, Repr

/-- In-memory stand-in for the SQL database behind `Connection`. -/
structure Db where
  members : List Member
  transactions : List Transaction
  rules : List BankImportRule
deriving DecidableEq, Repr

/-- Retrieve a member row by id (`Retrieve<Member, Key=u32>`). -/
def Db.retrieveMember (db : Db) (memberId : Nat) : Option Member :=
  db.members.find? (fun m => m.id == memberId)

/-- Update the member row with the same id (`Update<Member>`). -/
def Db.updateMember (db : Db) (m : Member) : Db :=
  { db with members := db.members.map (fun x => if x.id == m.id then m else x) }

/-- Insert a transaction row (`Insert<Transaction>` appends a ledger row). -/
def Db.insertTransaction (db : Db) (tx : Transaction) : Db :=
  { db with transactions := db.transactions ++ [tx] }

/-- Insert a bank import rule row (`Insert<BankImportRule>`). -/
def Db.insertRule (db : Db) (r : BankImportRule) : Db :=
  { db with rules := db.rules ++ [r] }

/-- Ledger primitive `Member::apply_transaction`
(`eris-accounting/src/transactions.rs`): force the transaction's
`member_id`, insert it, add its amount to the balance, persist and return
the refreshed member. -/
def Member.apply_transaction (member : Member) (db : Db) (tx : Transaction) :
    Db × Member :=
  let tx := { tx with member_id := member.id }
  let db := db.insertTransaction tx
  let member := { member with account := member.account + tx.amount }
  let db := db.updateMember member
  (db, member)

/-- Apply a finite sequence of transactions through the ledger primitive,
threading the refreshed member as callers of `apply_transaction` do. -/
def applyAll (db : Db) (m : Member) : List Transaction → Db × Member
  | [] => (db, m)
  | tx :: rest =>
    let s := m.apply_transaction db tx
    applyAll s.1 s.2 rest

theorem applyAll_member (txs : List Transaction) :
    ∀ (db : Db) (m : Member),
      (applyAll db m txs).2 =
        { m with account := m.account + (txs.map Transaction.amount).sum } := by
  induction txs with
  | nil =>
    intro db m
    simp [applyAll]
  | cons tx rest ih =>
    intro db m
    simp only [applyAll, Member.apply_transaction, ih, List.map_cons, List.sum_cons]
    congr 1
    ring

theorem applyAll_transactions (txs : List Transaction) :
    ∀ (db : Db) (m : Member),
      (applyAll db m txs).1.transactions =
        db.transactions ++ txs.map (fun tx => { tx with member_id := m.id }) := by
  induction txs with
  | nil =>
    intro db m
    simp [applyAll]
  | cons tx rest ih =>
    intro db m
    simp only [applyAll, Member.apply_transaction, ih, Db.insertTransaction,
      Db.updateMember, List.map_cons]
    simp

/-- C1: starting from a member with `account = 0` and a ledger holding no
transactions for that member, after any finite sequence of
`apply_transaction` calls the member's `account` equals the sum of the
`amount` fields of all ledger transactions whose `member_id` is the
member's id. -/
theorem C1_apply_transaction_balance_invariant
    (txs : List Transaction) (db : Db) (m : Member)
    (hacct : m.account = 0)
    (hledger : (db.transactions.filter (fun tx => tx.member_id == m.id)) = []) :
    (applyAll db m txs).2.account =
      (((applyAll db m txs).1.transactions.filter
          (fun tx => tx.member_id == m.id)).map Transaction.amount).sum := by
  rw [applyAll_member, applyAll_transactions]
  simp [List.filter_append, hledger, hacct, List.filter_map, Function.comp_def]

/-- Witness for C1 at a concrete two-transaction run. -/
theorem C1_apply_transaction_balance_invariant_witness :
    (applyAll ⟨[], [], []⟩
        { id := 7, name := "m", email := "", notes := "",
          membership_start := Date.epoch, membership_end := none,
          fee := 0, interval := 1, last_payment := Date.epoch,
          account := 0, account_calculated_at := Date.epoch,
          last_bank_transaction_at := Date.epoch,
          last_bank_transaction_number := 0 }
        [{ Transaction.default with amount := 10 },
         { Transaction.default with amount := -3 }]).2.account =
      (((applyAll ⟨[], [], []⟩
        { id := 7, name := "m", email := "", notes := "",
          membership_start := Date.epoch, membership_end := none,
          fee := 0, interval := 1, last_payment := Date.epoch,
          account := 0, account_calculated_at := Date.epoch,
          last_bank_transaction_at := Date.epoch,
          last_bank_transaction_number := 0 }
        [{ Transaction.default with amount := 10 },
         { Transaction.default with amount := -3 }]).1.transactions.filter
          (fun tx => tx.member_id == 7)).map Transaction.amount).sum :=
  C1_apply_transaction_balance_invariant _ _ _ (by decide) (by decide)

/-! ### Date order and month arithmetic lemmas -/

/-- Month fields produced by chrono dates lie in 1..12. -/
def Date.validMonth (d : Date) : Prop :=
  1 ≤ d.month ∧ d.month ≤ 12

theorem Date.le_total_of_not_le (a b : Date) (h : Date.le a b = false) :
    Date.lt b a = true := by
  simp [Date.le, Date.lt] at *
  omega

theorem Date.le_total_of_not_lt (a b : Date) (h : Date.lt a b = false) :
    Date.le b a = true := by
  simp [Date.le, Date.lt] at *
  omega

theorem Date.monthIndex_le_of_lt (a b : Date) (ha : a.month ≤ 12)
    (hb : 1 ≤ b.month) (h : Date.lt a b = true) :
    a.monthIndex ≤ b.monthIndex := by
  simp [Date.lt, Date.monthIndex] at *
  omega

theorem Date.monthIndex_withDay1 (d : Date) :
    d.withDay1.monthIndex = d.monthIndex := rfl

theorem Date.withDay1_withDay1 (d : Date) :
    d.withDay1.withDay1 = d.withDay1 := rfl

theorem Date.withDay1_day (d : Date) : d.withDay1.day = 1 := rfl

theorem Date.withDay1_of_day_eq_one (d : Date) (h : d.day = 1) :
    d.withDay1 = d := by
  cases d
  simp_all [Date.withDay1]

theorem Date.monthIndex_addMonthsI (d : Date) (n : Int) :
    (d.addMonthsI n).monthIndex = d.monthIndex + n := by
  unfold Date.addMonthsI Date.monthIndex
  have hmod : 0 ≤ Int.emod (d.year * 12 + d.month - 1 + n) 12 :=
    Int.emod_nonneg _ (by decide)
  have hdm : 12 * Int.ediv (d.year * 12 + d.month - 1 + n) 12 +
      Int.emod (d.year * 12 + d.month - 1 + n) 12 =
      d.year * 12 + d.month - 1 + n :=
    Int.ediv_add_emod _ 12
  simp only
  omega

theorem Date.addMonthsI_day (d : Date) (n : Int) :
    (d.addMonthsI n).day = d.day := rfl

theorem Date.addMonthsI_validMonth (d : Date) (n : Int) :
    (d.addMonthsI n).validMonth := by
  unfold Date.addMonthsI Date.validMonth
  have hmod : 0 ≤ Int.emod (d.year * 12 + d.month - 1 + n) 12 :=
    Int.emod_nonneg _ (by decide)
  have hlt : Int.emod (d.year * 12 + d.month - 1 + n) 12 < 12 :=
    Int.emod_lt_of_pos _ (by decide)
  simp only
  omega

theorem maxDate_day (a b : Date) (ha : a.day = 1) (hb : b.day = 1) :
    (maxDate a b).day = 1 := by
  unfold maxDate
  split <;> assumption

/-! ### Fee engine (`eris-accounting/src/member_fees.rs`) -/

/-- One month's owed fee (`MemberFee`). -/
structure MemberFee where
  amount : Rat
  date : Date
deriving DecidableEq, Repr

/-- English month name used by chrono's `%B` format code. -/
def monthName : Nat → String
  | 1 => "January"
  | 2 => "February"
  | 3 => "March"
  | 4 => "April"
  | 5 => "May"
  | 6 => "June"
  | 7 => "July"
  | 8 => "August"
  | 9 => "September"
  | 10 => "October"
  | 11 => "November"
  | 12 => "December"
  | _ => ""

/-- `MemberFee::describe`: the fixed fee description pattern. -/
def MemberFee.describe (fee : MemberFee) : String :=
  "Monthly member fee for " ++ monthName fee.date.month ++ " " ++
    toString fee.date.year

/-- `From<MemberFee> for Transaction` (transactions.rs): negated amount,
fee date, the source's literal account name and the fee description. -/
def MemberFee.toTransaction (fee : MemberFee) : Transaction :=
  { Transaction.default with
    amount := -fee.amount,
    date := fee.date,
    account_name := "memberhip fee",
    description := fee.describe }

/-- `is_member_active` (member_fees.rs): the member is active for a month
iff the month's first day is within the month-aligned membership interval. -/
def is_member_active (member : Member) (date : Date) : Bool :=
  let date := date.withDay1
  let start := member.membership_start.withDay1
  let stop := member.membership_end.map Date.withDay1
  if date.lt start then false
  else
    match stop with
    | some e => if e.lt date then false else true
    | none => true

/-- Number of iterations of the fee loop `while date <= end`, for dates
aligned to the first of a month: one per month from `start` to `stop`. -/
def monthSpan (start stop : Date) : Nat :=
  (stop.monthIndex + 1 - start.monthIndex).toNat

/-- `Member::calculate_fees` (member_fees.rs): align `last_payment`; start
from the maximum of the aligned `membership_start` and the aligned `start`
argument; walk month by month up to the aligned `end`, generating a fee of
`member.fee` for each month in which the member is active and which lies
strictly after `last_payment`. The source's `while date <= end` loop over
first-of-month dates is rendered as a traversal of the month count. -/
def Member.calculate_fees (member : Member) (start stop : Date) :
    List MemberFee :=
  let last_payment := member.last_payment.withDay1
  let start := maxDate (member.membership_start.withDay1) (start.withDay1)
  let stop := stop.withDay1
  (List.range (monthSpan start stop)).filterMap (fun (k : Nat) =>
    let date := start.addMonthsI k
    if is_member_active member date && last_payment.lt date then
      some { amount := member.fee, date := date }
    else none)

theorem is_member_active_bounds (member : Member) (date : Date)
    (h : is_member_active member date = true) :
    Date.lt date.withDay1 member.membership_start.withDay1 = false ∧
    ∀ e, member.membership_end = some e →
      Date.lt e.withDay1 date.withDay1 = false := by
  unfold is_member_active at h
  by_cases h1 : Date.lt date.withDay1 member.membership_start.withDay1 = true
  · rw [if_pos h1] at h
    cases h
  · refine ⟨by simpa using h1, ?_⟩
    intro e he
    rw [if_neg h1, he] at h
    by_cases h2 : Date.lt e.withDay1 date.withDay1 = true
    · simp [h2] at h
    · simpa using h2

/-- C4: every fee returned by `calculate_fees` carries a month-aligned date
that is not before the month of `membership_start`, not after the month of
`membership_end` when it is present, and strictly after the month of
`last_payment`. -/
theorem C4_calculate_fees_window_bounds (member : Member) (start stop : Date)
    (fee : MemberFee) (hmem : fee ∈ member.calculate_fees start stop) :
    fee.date.day = 1 ∧
    Date.le member.membership_start.withDay1 fee.date = true ∧
    (∀ e, member.membership_end = some e →
      Date.le fee.date e.withDay1 = true) ∧
    Date.lt member.last_payment.withDay1 fee.date = true := by
  simp only [Member.calculate_fees, List.mem_filterMap, List.mem_range] at hmem
  obtain ⟨k, hk, hcond⟩ := hmem
  by_cases hc :
      (is_member_active member
          ((maxDate member.membership_start.withDay1 start.withDay1).addMonthsI k) &&
        Date.lt member.last_payment.withDay1
          ((maxDate member.membership_start.withDay1 start.withDay1).addMonthsI k)) = true
  · rw [if_pos hc] at hcond
    rw [Bool.and_eq_true] at hc
    obtain ⟨hactive, hlast⟩ := hc
    have hfee : fee.date =
        (maxDate member.membership_start.withDay1 start.withDay1).addMonthsI k := by
      cases hcond
      rfl
    have hday : fee.date.day = 1 := by
      rw [hfee, Date.addMonthsI_day]
      exact maxDate_day _ _ (Date.withDay1_day _) (Date.withDay1_day _)
    have halign : fee.date.withDay1 = fee.date :=
      Date.withDay1_of_day_eq_one _ hday
    rw [← hfee] at hactive hlast
    obtain ⟨hstart, hend⟩ := is_member_active_bounds _ _ hactive
    rw [halign] at hstart hend
    refine ⟨hday, ?_, ?_, hlast⟩
    · exact Date.le_total_of_not_lt _ _ hstart
    · intro e he
      exact Date.le_total_of_not_lt _ _ (hend e he)
  · rw [if_neg hc] at hcond
    cases hcond

/-- Test member mirroring the source's fee-calculation unit test. -/
def feeTestMember : Member :=
  { id := 1, name := "m", email := "", notes := "",
    membership_start := ⟨2023, 5, 9⟩, membership_end := none,
    fee := 23, interval := 1, last_payment := Date.epoch,
    account := 0, account_calculated_at := Date.epoch,
    last_bank_transaction_at := Date.epoch,
    last_bank_transaction_number := 0 }

/-- First fee generated for `feeTestMember` in the window 2023-01..2023-07. -/
def feeTestFee : MemberFee :=
  { amount := 23, date := ⟨2023, 5, 1⟩ }

/-- Witness for C4 at the source's own fee-calculation test member. -/
theorem C4_calculate_fees_window_bounds_witness :
    feeTestFee ∈ feeTestMember.calculate_fees ⟨2023, 1, 1⟩ ⟨2023, 7, 23⟩ ∧
    feeTestFee.date.day = 1 ∧
    Date.lt feeTestMember.last_payment.withDay1 feeTestFee.date = true := by
  refine ⟨by decide, ?_, ?_⟩
  · exact (C4_calculate_fees_window_bounds feeTestMember ⟨2023, 1, 1⟩
      ⟨2023, 7, 23⟩ feeTestFee (by decide)).1
  · exact (C4_calculate_fees_window_bounds feeTestMember ⟨2023, 1, 1⟩
      ⟨2023, 7, 23⟩ feeTestFee (by decide)).2.2.2

/-- Modelled from the spec: the one-argument `Member::calculate_fees(end)`
invoked by `CalculateAccounts::run` (eris-cli/src/commands/accounting.rs)
is missing from the sources, which only contain its caller and an older
two-argument variant. Following the spec's fee-engine algorithm, all dates
are aligned to the first of their month, the candidate start is
`max(membership_start, account_calculated_at + 1 month)`, and a fee of
`member.fee` is generated for each month from the start to the end in
which the member is active and which lies strictly after `last_payment`. -/
def Member.calculate_fees_watermark (member : Member) (stop : Date) :
    List MemberFee :=
  let last_payment := member.last_payment.withDay1
  let start := maxDate (member.membership_start.withDay1)
    (member.account_calculated_at.withDay1.addMonthsI 1)
  let stop := stop.withDay1
  (List.range (monthSpan start stop)).filterMap (fun (k : Nat) =>
    let date := start.addMonthsI k
    if is_member_active member date && last_payment.lt date then
      some { amount := member.fee, date := date }
    else none)

/-- One member's iteration of `CalculateAccounts::run`
(eris-cli/src/commands/accounting.rs): align the requested end date,
compute the fees; when there are none the member is skipped; otherwise
convert each fee to a transaction, post all of them through the ledger
primitive, then set `account_calculated_at` to the aligned end date and
persist the member. -/
def calculateAccountsRun (db : Db) (member : Member) (until_ : Date) :
    Db × Member :=
  let stop := until_.withDay1
  let fees := member.calculate_fees_watermark stop
  if fees.isEmpty then (db, member)
  else
    let txs := fees.map MemberFee.toTransaction
    let s := applyAll db member txs
    let member := { s.2 with account_calculated_at := stop }
    (s.1.updateMember member, member)

theorem calculate_fees_watermark_empty (member : Member) (stop : Date)
    (hvm : member.membership_start.validMonth)
    (hacc : stop.monthIndex ≤ member.account_calculated_at.monthIndex) :
    member.calculate_fees_watermark stop = [] := by
  unfold Member.calculate_fees_watermark
  have hspan : monthSpan
      (maxDate member.membership_start.withDay1
        (member.account_calculated_at.withDay1.addMonthsI 1))
      stop.withDay1 = 0 := by
    unfold monthSpan maxDate
    split
    · rw [Date.monthIndex_withDay1, Date.monthIndex_addMonthsI,
        Date.monthIndex_withDay1]
      omega
    · rename_i hle
      have hlt := Date.le_total_of_not_le _ _ (by simpa using hle)
      have hvx := Date.addMonthsI_validMonth
        member.account_calculated_at.withDay1 1
      have hmi := Date.monthIndex_le_of_lt
        (member.account_calculated_at.withDay1.addMonthsI 1)
        member.membership_start.withDay1 hvx.2 hvm.1 hlt
      simp only [Date.monthIndex_addMonthsI, Date.monthIndex_withDay1] at hmi ⊢
      omega
  simp [hspan]

/-- C3: after one fee run for a member with end date E (all generated fees
posted through the ledger primitive, then `account_calculated_at` advanced
to the aligned E), computing the fees a second time with the same end date
E yields the empty list. -/
theorem C3_fee_run_idempotent (db : Db) (member : Member) (until_ : Date)
    (hvm : member.membership_start.validMonth) :
    (calculateAccountsRun db member until_).2.calculate_fees_watermark
      until_.withDay1 = [] := by
  unfold calculateAccountsRun
  by_cases h :
      (member.calculate_fees_watermark until_.withDay1).isEmpty = true
  · simp only [h, if_true]
    simpa using h
  · simp only [h, if_false, Bool.false_eq_true]
    apply calculate_fees_watermark_empty
    · simpa only [applyAll_member] using hvm
    · simp only [applyAll_member]
      exact le_refl _

/-- Witness for C3 at a concrete member and end date. -/
theorem C3_fee_run_idempotent_witness :
    (calculateAccountsRun ⟨[], [], []⟩ feeTestMember
        ⟨2023, 7, 23⟩).2.calculate_fees_watermark
      (⟨2023, 7, 23⟩ : Date).withDay1 = [] :=
  C3_fee_run_idempotent ⟨[], [], []⟩ feeTestMember ⟨2023, 7, 23⟩
    ⟨by decide, by decide⟩

/-! ### Fee-calculation date check (`member_fees.rs`) -/

instance exceptDecEq {ε α : Type} [DecidableEq ε] [DecidableEq α] :
    DecidableEq (Except ε α) := fun a b =>
  match a, b with
  | Except.error x, Except.error y =>
    if h : x = y then isTrue (by rw [h])
    else isFalse (by intro hc; cases hc; exact h rfl)
  | Except.ok x, Except.ok y =>
    if h : x = y then isTrue (by rw [h])
    else isFalse (by intro hc; cases hc; exact h rfl)
  | Except.error _, Except.ok _ => isFalse (by intro hc; cases hc)
  | Except.ok _, Except.error _ => isFalse (by intro hc; cases hc)

/-- Error kinds of the fee-calculation date check (member_fees.rs `Error`),
carrying the dates the source formats into its messages. -/
inductive FeeCalcError
  | lastCalculationAfterStart (start calculatedAt : Date)
  | lastCalculationAfterEnd (stop calculatedAt : Date)
deriving DecidableEq, Repr

/-- `check_member_fee_calculation_dates` (member_fees.rs): align the
requested start and end dates; align the stored `accounts_calculated_at`
and step it one month back (the source assumes the stored date belongs to
a calculation for the previous month); fail when the aligned start, or
else the aligned end, is at or before that stepped-back watermark. -/
def check_member_fee_calculation_dates (state : State) (start stop : Date) :
    Except FeeCalcError Unit :=
  let start := start.withDay1
  let stop := stop.withDay1
  let calculated_at := state.accounts_calculated_at.withDay1
  let calculated_at := calculated_at.addMonthsI (-1)
  if start.le calculated_at then
    Except.error (FeeCalcError.lastCalculationAfterStart start
      state.accounts_calculated_at)
  else if stop.le calculated_at then
    Except.error (FeeCalcError.lastCalculationAfterEnd stop
      state.accounts_calculated_at)
  else Except.ok ()

/-- C7 (amended): the fee-calculation date check fails exactly when the
month-aligned start or the month-aligned end is at or before the
month-aligned `accounts_calculated_at` watermark stepped back by one
month — not at or before the watermark itself — and the check performs no
postings (it only reads the state). -/
theorem C7_check_fee_calculation_dates_iff (state : State) (start stop : Date) :
    (∃ e, check_member_fee_calculation_dates state start stop =
        Except.error e) ↔
      (Date.le start.withDay1
          (state.accounts_calculated_at.withDay1.addMonthsI (-1)) = true ∨
        Date.le stop.withDay1
          (state.accounts_calculated_at.withDay1.addMonthsI (-1)) = true) := by
  unfold check_member_fee_calculation_dates
  by_cases h1 : Date.le start.withDay1
      (state.accounts_calculated_at.withDay1.addMonthsI (-1)) = true
  · simp [h1]
  · by_cases h2 : Date.le stop.withDay1
        (state.accounts_calculated_at.withDay1.addMonthsI (-1)) = true
    · simp [h1, h2]
    · simp [h1, h2]

/-- Counterexample to C7 as stated: with the watermark 2023-05-06 the
month-aligned start 2023-05-01 is at or before the watermark, yet the
check succeeds (this is also the source's own unit test). -/
theorem C7_check_fee_calculation_dates_counterexample :
    check_member_fee_calculation_dates ⟨⟨2023, 5, 6⟩⟩ ⟨2023, 5, 1⟩
        ⟨2023, 6, 1⟩ = Except.ok () ∧
      Date.le (Date.withDay1 ⟨2023, 5, 1⟩) ⟨2023, 5, 6⟩ = true := by
  decide

/-! ### Import engine (`eris-banking/src/bank_transaction.rs`) -/

/-- Errors of the bank import (`BankImportError`). The string payload of
`MoreRecentTransactionPresent` is kept as the structured data the source
formats into it, and the transparent `anyhow` persistence error of a
failed member lookup is `memberNotFound`. -/
inductive BankImportError
  | accountMatchFailed (tx : BankTransaction)
  | insufficientAmountForSplit (tx : BankTransaction)
  | moreRecentTransactionPresent (lastAt : Date) (lastNum : Nat)
      (txDate : Date) (txNum : Nat)
  | memberNotFound
deriving DecidableEq, Repr

/-- Prefix test on character lists, backing the substring test. -/
def charsPrefix : List Char → List Char → Bool
  | [], _ => true
  | _ :: _, [] => false
  | a :: as, b :: bs => a == b && charsPrefix as bs

/-- Contiguous-substring test on character lists. -/
def charsSubstr (pat : List Char) : List Char → Bool
  | [] => pat.isEmpty
  | c :: rest => charsPrefix pat (c :: rest) || charsSubstr pat rest

/-- Rust `str::contains` with a string pattern: contiguous substring. -/
def strContains (s pat : String) : Bool :=
  charsSubstr pat.data s.data

/-- `BankImportRule::match_subject` (bank_import.rs): `none` when the rule
has no subject filter, otherwise whether the lowercased transaction
subject contains the rule's (unlowercased) `match_subject` text. -/
def BankImportRule.matchSubject (rule : BankImportRule) (subject : String) :
    Option Bool :=
  match rule.match_subject with
  | none => none
  | some pat => some (strContains subject.toLower pat)

/-- `BankTransaction::check_last_member_transcation` (sic): fail when the
member's stored bank watermark date is at least the transaction date and
the stored serial number is at least the transaction serial number. -/
def BankTransaction.check_last_member_transcation (self : BankTransaction)
    (member : Member) : Except BankImportError Unit :=
  let has_recent_date := Date.le self.date member.last_bank_transaction_at
  let has_newer_serial := self.num ≤ member.last_bank_transaction_number
  if has_recent_date && has_newer_serial then
    Except.error (BankImportError.moreRecentTransactionPresent
      member.last_bank_transaction_at member.last_bank_transaction_number
      self.date self.num)
  else Except.ok ()

/-- Member-name match behind `MemberFilter.name`: the storage layer matches
with `name LIKE '%pattern%'`, a case-insensitive substring test. -/
def memberNameMatches (memberName pattern : String) : Bool :=
  strContains memberName.toLower pattern.toLower

/-- `BankTransaction::make_default_rule`: if exactly one member matches the
counterpart name, insert and return a default rule (no split, no subject
filter) binding the transaction's IBAN to that member; otherwise fail with
the unresolved-account error carrying the transaction. -/
def BankTransaction.make_default_rule (self : BankTransaction) (db : Db) :
    Db × Except BankImportError BankImportRule :=
  match db.members.filter (fun m => memberNameMatches m.name self.name) with
  | [member] =>
    let rule : BankImportRule :=
      { member_id := member.id, iban := self.iban,
        split_amount := none, match_subject := none }
    (db.insertRule rule, Except.ok rule)
  | _ => (db, Except.error (BankImportError.accountMatchFailed self))

/-- Rule resolution at the head of `BankTransaction::import`: query the
rules for the transaction's IBAN; if none exist, synthesize a default rule. -/
def BankTransaction.resolveRules (self : BankTransaction) (db : Db) :
    Db × Except BankImportError (List BankImportRule) :=
  let rules := db.rules.filter (fun r => r.iban == self.iban)
  if rules.isEmpty then
    match self.make_default_rule db with
    | (db2, Except.ok rule) => (db2, Except.ok [rule])
    | (db2, Except.error e) => (db2, Except.error e)
  else (db, Except.ok rules)

/-- Rule loop of `BankTransaction::import`: visit the rules in order,
skipping rules whose subject filter excludes the transaction; for each
remaining rule resolve its member, run the duplicate guard, allocate the
rule's split amount (failing when more than the remainder) or else the
whole remainder, and queue `(member, transaction, serial)`; the running
remainder decreases by each allocation. The source also builds a local
subject with an " (split)" suffix in the split case, but the queued
transaction's description is built from the unmodified subject (see C6). -/
def BankTransaction.importLoop (self : BankTransaction) (db : Db) :
    List BankImportRule → Rat →
    Except BankImportError (List (Member × Transaction × Nat) × Rat)
  | [], total_amount => Except.ok ([], total_amount)
  | rule :: rest, total_amount =>
    if rule.matchSubject self.subject == some false then
      self.importLoop db rest total_amount
    else
      match db.retrieveMember rule.member_id with
      | none => Except.error BankImportError.memberNotFound
      | some member =>
        match self.check_last_member_transcation member with
        | Except.error e => Except.error e
        | Except.ok _ =>
          match (match rule.split_amount with
                 | some split_amount =>
                   if decide (total_amount < split_amount) then
                     Except.error
                       (BankImportError.insufficientAmountForSplit self)
                   else Except.ok split_amount
                 | none => Except.ok total_amount :
                  Except BankImportError Rat) with
          | Except.error e => Except.error e
          | Except.ok amount =>
            let tx : Transaction :=
              { Transaction.default with
                date := self.date, amount := amount,
                account_name := self.name, description := self.subject }
            match self.importLoop db rest (total_amount - amount) with
            | Except.error e => Except.error e
            | Except.ok (pend, total) =>
              Except.ok ((member, tx, self.num) :: pend, total)

/-- Posting phase of `BankTransaction::import`: apply each queued
transaction through the ledger primitive, then advance the member's
`last_bank_transaction_at` / `last_bank_transaction_number` watermark to
the transaction date and serial number and persist. -/
def importApply (db : Db) : List (Member × Transaction × Nat) → Db
  | [] => db
  | (member, tx, num) :: rest =>
    let s := member.apply_transaction db tx
    let member := { s.2 with
      last_bank_transaction_at := tx.date,
      last_bank_transaction_number := num }
    importApply (s.1.updateMember member) rest

/-- Overflow phase of `BankTransaction::import`: when a positive remainder
is left, post it in one transaction, subject suffixed " (overflow)", to the
first resolved rule's member through the ledger primitive alone (no
watermark update). -/
def BankTransaction.importOverflow (self : BankTransaction) (db : Db)
    (rules : List BankImportRule) (total_amount : Rat) :
    Db × Except BankImportError Unit :=
  if decide (total_amount ≤ 0) then (db, Except.ok ())
  else
    match rules.head? with
    | some rule =>
      match db.retrieveMember rule.member_id with
      | none => (db, Except.error BankImportError.memberNotFound)
      | some member =>
        let subject := self.subject ++ " (overflow)"
        let tx : Transaction :=
          { Transaction.default with
            date := self.date, amount := total_amount,
            account_name := self.name, description := subject }
        ((member.apply_transaction db tx).1, Except.ok ())
    | none => (db, Except.ok ())

/-- `BankTransaction::import` (bank_transaction.rs): resolve the rules for
the IBAN, run the rule loop, post the queued transactions, then distribute
any positive remainder as overflow. (`import` is a reserved word in Lean,
hence the name.) -/
def BankTransaction.importTransaction (self : BankTransaction) (db : Db) :
    Db × Except BankImportError Unit :=
  match self.resolveRules db with
  | (db, Except.error e) => (db, Except.error e)
  | (db, Except.ok rules) =>
    match self.importLoop db rules self.amount with
    | Except.error e => (db, Except.error e)
    | Except.ok (transactions, total_amount) =>
      self.importOverflow (importApply db transactions) rules total_amount

/-- First member of the source's split-import test. -/
def splitMember1 : Member :=
  { id := 1, name := "Test Member", email := "", notes := "",
    membership_start := Date.epoch, membership_end := none,
    fee := 0, interval := 0, last_payment := Date.epoch,
    account := 0, account_calculated_at := Date.epoch,
    last_bank_transaction_at := Date.epoch,
    last_bank_transaction_number := 0 }

/-- Second member of the source's split-import test. -/
def splitMember2 : Member :=
  { splitMember1 with id := 2, name := "Best Member" }

/-- Database of the source's split-import test: two members sharing the
IBAN DE2342 through one split rule of 10 and one of 20. -/
def splitTestDb : Db :=
  ⟨[splitMember1, splitMember2], [],
    [{ member_id := 1, iban := "DE2342", split_amount := some 10,
       match_subject := none },
     { member_id := 2, iban := "DE2342", split_amount := some 20,
       match_subject := none }]⟩

/-- Incoming bank transaction of the source's split-import test. -/
def splitTestTx : BankTransaction :=
  { num := 1, date := ⟨2023, 5, 10⟩, name := "Dr. M. Ber, B. Member",
    iban := "DE2342", amount := 32,
    subject := "Mitgliedsbeitrag fuer beide" }

/-- C5: importing a 32.0 transaction against a first rule with split 10.0
and a second rule with split 20.0 posts exactly three transactions — 10.0
to the first rule's member, 20.0 to the second rule's member and the 2.0
remainder to the first rule's member — summing to 32.0. -/
theorem C5_split_overflow_allocation :
    (splitTestTx.importTransaction splitTestDb).2 = Except.ok () ∧
    (splitTestTx.importTransaction splitTestDb).1.transactions.map
        (fun tx => (tx.member_id, tx.amount)) =
      [(1, (10 : Rat)), (2, 20), (1, 2)] ∧
    ((splitTestTx.importTransaction splitTestDb).1.transactions.map
        Transaction.amount).sum = 32 := by
  norm_num [BankTransaction.importTransaction, BankTransaction.resolveRules,
    BankTransaction.importLoop, BankTransaction.importOverflow, importApply,
    Member.apply_transaction, Db.insertTransaction, Db.updateMember,
    Db.retrieveMember, BankTransaction.check_last_member_transcation,
    BankImportRule.matchSubject, splitTestDb, splitTestTx, splitMember1,
    splitMember2, Transaction.default, Date.le, Date.epoch]

/-- C6: at the source's own split-import scenario the two split postings
carry the unmodified subject as description — the " (split)" suffix the
source computes into a local variable is never used — while the overflow
posting does carry its suffix. -/
theorem C6_split_subject_suffix_missing :
    (splitTestTx.importTransaction splitTestDb).1.transactions.map
        Transaction.description =
      ["Mitgliedsbeitrag fuer beide", "Mitgliedsbeitrag fuer beide",
       "Mitgliedsbeitrag fuer beide (overflow)"] := by
  norm_num [BankTransaction.importTransaction, BankTransaction.resolveRules,
    BankTransaction.importLoop, BankTransaction.importOverflow, importApply,
    Member.apply_transaction, Db.insertTransaction, Db.updateMember,
    Db.retrieveMember, BankTransaction.check_last_member_transcation,
    BankImportRule.matchSubject, splitTestDb, splitTestTx, splitMember1,
    splitMember2, Transaction.default, Date.le, Date.epoch]
  rfl

/-- Member holding the stored bank watermark (2023-02-03, 23). -/
def guardMember : Member :=
  { splitMember1 with
    id := 1, name := "Test Member",
    last_bank_transaction_at := ⟨2023, 2, 3⟩,
    last_bank_transaction_number := 23 }

/-- Database with `guardMember` and one default rule for DE99. -/
def guardDb : Db :=
  ⟨[guardMember], [],
    [{ member_id := 1, iban := "DE99", split_amount := none,
       match_subject := none }]⟩

/-- Bank transaction dated before the stored watermark date but with a
serial number above the stored serial number. -/
def guardStaleDateTx : BankTransaction :=
  { num := 30, date := ⟨2023, 2, 2⟩, name := "Test Member", iban := "DE99",
    amount := 5, subject := "subject" }

/-- Bank transaction at exactly the stored watermark pair. -/
def guardEqualTx : BankTransaction :=
  { num := 23, date := ⟨2023, 2, 3⟩, name := "Test Member", iban := "DE99",
    amount := 5, subject := "subject" }

/-- Counterexample to C2 as stated: the stored pair (2023-02-03, 23) is
lexicographically greater than the incoming pair (2023-02-02, 30) — the
stored date is strictly newer — yet the guard and the whole import
succeed, because the source compares the two components independently and
the stored serial 23 is below the incoming serial 30. -/
theorem C2_duplicate_guard_counterexample :
    Date.lt guardStaleDateTx.date guardMember.last_bank_transaction_at
      = true ∧
    guardStaleDateTx.check_last_member_transcation guardMember =
      Except.ok () ∧
    (guardStaleDateTx.importTransaction guardDb).2 = Except.ok () := by
  refine ⟨by decide, by decide, ?_⟩
  norm_num [BankTransaction.importTransaction, BankTransaction.resolveRules,
    BankTransaction.importLoop, BankTransaction.importOverflow, importApply,
    Member.apply_transaction, Db.insertTransaction, Db.updateMember,
    Db.retrieveMember, BankTransaction.check_last_member_transcation,
    BankImportRule.matchSubject, guardDb, guardMember, guardStaleDateTx,
    splitMember1, Transaction.default, Date.le, Date.epoch]

/-- C2 (amended): the duplicate guard of the import fails with the
more-recent-transaction error iff the stored watermark dominates the
incoming pair componentwise — `last_bank_transaction_at ≥ date` AND
`last_bank_transaction_number ≥ serial` — which agrees with the
lexicographic comparison when the dates coincide but lets a transaction
with a strictly older date and a strictly newer serial pass; and such a
failure on the first processed rule aborts the whole import call with
that error and an unchanged database. -/
theorem C2_duplicate_guard_componentwise :
    (∀ (member : Member) (btx : BankTransaction),
      (∃ a b c d, btx.check_last_member_transcation member =
          Except.error
            (BankImportError.moreRecentTransactionPresent a b c d)) ↔
        (Date.le btx.date member.last_bank_transaction_at = true ∧
          btx.num ≤ member.last_bank_transaction_number)) ∧
    (∀ (db : Db) (btx : BankTransaction) (rule : BankImportRule)
        (rest : List BankImportRule) (member : Member),
      db.rules.filter (fun r => r.iban == btx.iban) = rule :: rest →
      rule.match_subject = none →
      db.retrieveMember rule.member_id = some member →
      Date.le btx.date member.last_bank_transaction_at = true →
      btx.num ≤ member.last_bank_transaction_number →
      btx.importTransaction db =
        (db, Except.error (BankImportError.moreRecentTransactionPresent
          member.last_bank_transaction_at
          member.last_bank_transaction_number btx.date btx.num))) := by
  constructor
  · intro member btx
    unfold BankTransaction.check_last_member_transcation
    by_cases hdate : Date.le btx.date member.last_bank_transaction_at = true
    · by_cases hnum : btx.num ≤ member.last_bank_transaction_number
      · simp [hdate, hnum]
      · simp [hdate, hnum]
    · simp [hdate]
  · intro db btx rule rest member hrules hfilter hmem hdate hnum
    unfold BankTransaction.importTransaction BankTransaction.resolveRules
    rw [hrules]
    simp only [List.isEmpty_cons, Bool.false_eq_true, if_false]
    unfold BankTransaction.importLoop
    rw [BankImportRule.matchSubject, hfilter]
    simp only [hmem]
    unfold BankTransaction.check_last_member_transcation
    simp [hdate, decide_eq_true hnum]

/-- Witness for C2 at the stored watermark (2023-02-03, 23) and an
incoming transaction at exactly that pair: the import aborts with the
more-recent-transaction error and leaves the database unchanged. -/
theorem C2_duplicate_guard_componentwise_witness :
    guardEqualTx.importTransaction guardDb =
      (guardDb, Except.error (BankImportError.moreRecentTransactionPresent
        ⟨2023, 2, 3⟩ 23 ⟨2023, 2, 3⟩ 23)) :=
  C2_duplicate_guard_componentwise.2 guardDb guardEqualTx
    { member_id := 1, iban := "DE99", split_amount := none,
      match_subject := none }
    [] guardMember (by decide) (by decide) (by decide) (by decide)
    (by decide)

theorem make_default_rule_preserves (btx : BankTransaction) (db : Db) :
    (btx.make_default_rule db).1.members = db.members ∧
    (btx.make_default_rule db).1.transactions = db.transactions := by
  unfold BankTransaction.make_default_rule
  split <;> simp [Db.insertRule]

theorem resolveRules_preserves (btx : BankTransaction) (db : Db) :
    (btx.resolveRules db).1.members = db.members ∧
    (btx.resolveRules db).1.transactions = db.transactions := by
  unfold BankTransaction.resolveRules
  rcases hm : btx.make_default_rule db with ⟨db2, res⟩
  have hp := make_default_rule_preserves btx db
  rw [hm] at hp
  by_cases h : (db.rules.filter (fun r => r.iban == btx.iban)).isEmpty = true
  · cases res <;> simp_all
  · simp [h]

theorem importOverflow_no_insufficient (btx : BankTransaction) (db : Db)
    (rules : List BankImportRule) (total : Rat) (tx0 : BankTransaction) :
    (btx.importOverflow db rules total).2 ≠
      Except.error (BankImportError.insufficientAmountForSplit tx0) := by
  unfold BankTransaction.importOverflow
  by_cases h : decide (total ≤ 0) = true
  · simp [h]
  · rcases rules with _ | ⟨r, rest⟩
    · simp [h]
    · rcases hm : db.retrieveMember r.member_id with _ | m
      · simp [h, hm]
      · simp [h, hm, Member.apply_transaction]

/-- C8: a rule's fixed split amount is allocated only when the remainder
covers it — the source errors when `split_amount > remaining` — and when
the import call returns the insufficient-amount-for-split error it has
inserted no transaction and updated no member row. -/
theorem C8_insufficient_split_atomic (db : Db) (btx tx0 : BankTransaction)
    (herr : (btx.importTransaction db).2 =
      Except.error (BankImportError.insufficientAmountForSplit tx0)) :
    (btx.importTransaction db).1.transactions = db.transactions ∧
    (btx.importTransaction db).1.members = db.members := by
  unfold BankTransaction.importTransaction at herr ⊢
  have hpre := resolveRules_preserves btx db
  generalize hres : btx.resolveRules db = R at herr ⊢
  rw [hres] at hpre
  obtain ⟨db1, res⟩ := R
  cases res with
  | error e =>
    exact ⟨hpre.2, hpre.1⟩
  | ok rules =>
    dsimp only at herr hpre ⊢
    generalize hloop : btx.importLoop db1 rules btx.amount = L at herr ⊢
    cases L with
    | error e =>
      exact ⟨hpre.2, hpre.1⟩
    | ok p =>
      obtain ⟨txs, total⟩ := p
      dsimp only at herr
      exact absurd herr (importOverflow_no_insufficient btx
        (importApply db1 txs) rules total tx0)

/-- Database for the insufficient-split scenario: one member, one rule
demanding a 50.0 split. -/
def insufficientDb : Db :=
  ⟨[splitMember1], [],
    [{ member_id := 1, iban := "DE2342", split_amount := some 50,
       match_subject := none }]⟩

/-- A 32.0 transaction against the 50.0 split rule. -/
def insufficientTx : BankTransaction :=
  { num := 1, date := ⟨2023, 5, 10⟩, name := "Test Member",
    iban := "DE2342", amount := 32, subject := "subject" }

/-- Witness for C8: the 32.0-against-50.0 import errors and leaves the
database rows untouched. -/
theorem C8_insufficient_split_atomic_witness :
    (insufficientTx.importTransaction insufficientDb).1.transactions =
      insufficientDb.transactions ∧
    (insufficientTx.importTransaction insufficientDb).1.members =
      insufficientDb.members :=
  C8_insufficient_split_atomic insufficientDb insufficientTx insufficientTx
    (by decide)

theorem find?_map_update (l : List Member) (rid : Nat) (member m2 : Member)
    (hfind : l.find? (fun m => m.id == rid) = some member)
    (hid : m2.id = member.id) :
    (l.map (fun x => if x.id == m2.id then m2 else x)).find?
      (fun m => m.id == rid) = some m2 := by
  induction l with
  | nil => simp at hfind
  | cons x xs ih =>
    by_cases hx : (x.id == rid) = true
    · simp only [List.find?_cons, hx] at hfind
      injection hfind with hxm
      subst hxm
      have hxm2 : (x.id == m2.id) = true := by
        simp [hid]
      have hm2r : (m2.id == rid) = true := by
        rw [hid]
        exact hx
      simp only [List.map_cons]
      rw [if_pos hxm2]
      simp only [List.find?_cons, hm2r]
    · have hxb : (x.id == rid) = false := by
        simpa using hx
      simp only [List.find?_cons, hxb] at hfind
      have hmem0 := List.find?_some hfind
      have hmem : (member.id == rid) = true := hmem0
      have hxm2 : (x.id == m2.id) = false := by
        by_contra hc
        have hce : x.id = m2.id := by
          simpa using hc
        rw [hce, hid, hmem] at hxb
        cases hxb
      simp only [List.map_cons, hxm2, Bool.false_eq_true, if_false,
        List.find?_cons, hxb]
      exact ih hfind

theorem retrieveMember_updateMember_same (db : Db) (rid : Nat)
    (member m2 : Member) (hfind : db.retrieveMember rid = some member)
    (hid : m2.id = member.id) :
    (db.updateMember m2).retrieveMember rid = some m2 :=
  find?_map_update db.members rid member m2 hfind hid

/-- C9: when a positive remainder is left after the rule-loop postings, the
overflow phase posts exactly one additional transaction of the whole
remainder to the first resolved rule's member, with the subject suffixed
" (overflow)", and that member's row changes only in its balance — its
`last_bank_transaction_at` and `last_bank_transaction_number` watermark is
untouched. -/
theorem C9_overflow_posting (db : Db) (btx : BankTransaction)
    (rule : BankImportRule) (rest : List BankImportRule) (total : Rat)
    (member : Member) (hpos : 0 < total)
    (hmem : db.retrieveMember rule.member_id = some member) :
    (btx.importOverflow db (rule :: rest) total).2 = Except.ok () ∧
    (btx.importOverflow db (rule :: rest) total).1.transactions =
      db.transactions ++
        [{ id := 0, member_id := member.id, date := btx.date,
           account_name := btx.name, amount := total,
           description := btx.subject ++ " (overflow)" }] ∧
    (btx.importOverflow db (rule :: rest) total).1.retrieveMember
        rule.member_id =
      some { member with account := member.account + total } := by
  have hd : decide (total ≤ 0) = false := decide_eq_false (not_le.mpr hpos)
  unfold BankTransaction.importOverflow
  simp only [hd, Bool.false_eq_true, if_false, List.head?_cons, hmem]
  unfold Member.apply_transaction
  refine ⟨trivial, ?_, ?_⟩
  · simp [Db.insertTransaction, Db.updateMember, Transaction.default]
  · exact retrieveMember_updateMember_same
      (db.insertTransaction _) rule.member_id member _ hmem rfl

/-- Member of the overflow witness scenario. -/
def overflowMember : Member :=
  { splitMember1 with id := 5, name := "Overflow Member" }

/-- Database of the overflow witness scenario. -/
def overflowDb : Db :=
  ⟨[overflowMember], [],
    [{ member_id := 5, iban := "DE7", split_amount := some 30,
       match_subject := none }]⟩

/-- Bank transaction of the overflow witness scenario. -/
def overflowTx : BankTransaction :=
  { num := 4, date := ⟨2024, 1, 9⟩, name := "Overflow Member",
    iban := "DE7", amount := 32, subject := "spende" }

/-- Witness for C9 on a concrete overflow of 2.0. -/
theorem C9_overflow_posting_witness :
    (overflowTx.importOverflow overflowDb
        [{ member_id := 5, iban := "DE7", split_amount := some 30,
           match_subject := none }] 2).2 = Except.ok () ∧
    (overflowTx.importOverflow overflowDb
        [{ member_id := 5, iban := "DE7", split_amount := some 30,
           match_subject := none }] 2).1.transactions =
      overflowDb.transactions ++
        [{ id := 0, member_id := overflowMember.id, date := overflowTx.date,
           account_name := overflowTx.name, amount := 2,
           description := overflowTx.subject ++ " (overflow)" }] ∧
    (overflowTx.importOverflow overflowDb
        [{ member_id := 5, iban := "DE7", split_amount := some 30,
           match_subject := none }] 2).1.retrieveMember 5 =
      some { overflowMember with account := overflowMember.account + 2 } :=
  C9_overflow_posting overflowDb overflowTx
    { member_id := 5, iban := "DE7", split_amount := some 30,
      match_subject := none }
    [] 2 overflowMember (by decide) (by decide)

theorem find?_map_update_ne (l : List Member) (rid : Nat) (mu : Member)
    (hne : (mu.id == rid) = false) :
    (l.map (fun x => if x.id == mu.id then mu else x)).find?
      (fun m => m.id == rid) = l.find? (fun m => m.id == rid) := by
  induction l with
  | nil => simp
  | cons x xs ih =>
    by_cases hx : (x.id == mu.id) = true
    · have hxr : (x.id == rid) = false := by
        have hce : x.id = mu.id := by
          simpa using hx
        rw [hce]
        exact hne
      simp only [List.map_cons]
      rw [if_pos hx]
      simp only [List.find?_cons, hne, hxr]
      exact ih
    · simp only [List.map_cons]
      rw [if_neg hx]
      simp only [List.find?_cons]
      cases hp : (x.id == rid) with
      | false =>
        simp only [hp]
        exact ih
      | true =>
        simp only [hp]

theorem retrieveMember_updateMember_ne (db : Db) (rid : Nat) (mu : Member)
    (hne : (mu.id == rid) = false) :
    (db.updateMember mu).retrieveMember rid = db.retrieveMember rid :=
  find?_map_update_ne db.members rid mu hne

theorem updateMember_updateMember_same (d : Db) (a b : Member)
    (hid : a.id = b.id) :
    (d.updateMember a).updateMember b = d.updateMember b := by
  unfold Db.updateMember
  congr 1
  rw [List.map_map]
  have hfun : ((fun x => if x.id == b.id then b else x) ∘
      fun x => if x.id == a.id then a else x) =
      fun x => if x.id == b.id then b else x := by
    funext x
    by_cases hx : (x.id == a.id) = true
    · have hab : (a.id == b.id) = true := by
        simp [hid]
      have hxb : (x.id == b.id) = true := by
        have hxa : x.id = a.id := by
          simpa using hx
        simp [hxa, hid]
      simp only [Function.comp_apply]
      rw [if_pos hx, if_pos hab, if_pos hxb]
    · have hxb : (x.id == b.id) = false := by
        have hxa : x.id ≠ a.id := by
          simpa using hx
        simp [hid ▸ hxa]
      simp only [Function.comp_apply]
      rw [if_neg hx]
  rw [hfun]

/-- C10: when the resolved rule list is a catch-all rule (no split, no
subject filter) followed by a second rule with no split whose subject
filter passes, and the guards pass for two distinct members, the import
succeeds, the second rule's member receives a posted transaction of
amount exactly 0, and that member's bank watermark is still advanced to
the transaction's date and serial number. -/
theorem C10_zero_amount_after_catch_all
    (db : Db) (btx : BankTransaction) (r1 r2 : BankImportRule)
    (m1 m2 : Member)
    (hrules : db.rules.filter (fun r => r.iban == btx.iban) = [r1, r2])
    (h1s : r1.split_amount = none) (h1m : r1.match_subject = none)
    (h2s : r2.split_amount = none)
    (h2m : r2.matchSubject btx.subject ≠ some false)
    (hm1 : db.retrieveMember r1.member_id = some m1)
    (hm2 : db.retrieveMember r2.member_id = some m2)
    (hg1 : btx.check_last_member_transcation m1 = Except.ok ())
    (hg2 : btx.check_last_member_transcation m2 = Except.ok ())
    (hne : m1.id ≠ m2.id) :
    (btx.importTransaction db).2 = Except.ok () ∧
    (btx.importTransaction db).1.transactions =
      db.transactions ++
        [{ id := 0, member_id := m1.id, date := btx.date,
           account_name := btx.name, amount := btx.amount,
           description := btx.subject },
         { id := 0, member_id := m2.id, date := btx.date,
           account_name := btx.name, amount := 0,
           description := btx.subject }] ∧
    (btx.importTransaction db).1.retrieveMember r2.member_id =
      some { m2 with
        last_bank_transaction_at := btx.date,
        last_bank_transaction_number := btx.num } := by
  have h1m' : (r1.matchSubject btx.subject == some false) = false := by
    simp [BankImportRule.matchSubject, h1m]
  have h2m' : (r2.matchSubject btx.subject == some false) = false :=
    beq_eq_false_iff_ne.mpr h2m
  have himp : btx.importTransaction db =
      ((((db.insertTransaction
            { id := 0, member_id := m1.id, date := btx.date,
              account_name := btx.name, amount := btx.amount,
              description := btx.subject }).updateMember
          { m1 with
            account := m1.account + btx.amount,
            last_bank_transaction_at := btx.date,
            last_bank_transaction_number := btx.num }).insertTransaction
            { id := 0, member_id := m2.id, date := btx.date,
              account_name := btx.name, amount := 0,
              description := btx.subject }).updateMember
          { m2 with
            last_bank_transaction_at := btx.date,
            last_bank_transaction_number := btx.num },
        Except.ok ()) := by
    unfold BankTransaction.importTransaction BankTransaction.resolveRules
      BankTransaction.importOverflow
    rw [hrules]
    simp [BankTransaction.importLoop, h1m', h2m', hm1, hm2, hg1, hg2,
      h1s, h2s, importApply, Member.apply_transaction, Transaction.default,
      Db.insertTransaction, updateMember_updateMember_same]
  have hid20 := List.find?_some hm2
  have hid2 : (m2.id == r2.member_id) = true := hid20
  have hne1 : (Member.id { m1 with
      account := m1.account + btx.amount,
      last_bank_transaction_at := btx.date,
      last_bank_transaction_number := btx.num } == r2.member_id) = false := by
    show (m1.id == r2.member_id) = false
    have hm2id : m2.id = r2.member_id := by
      simpa using hid2
    simp [← hm2id, hne]
  have hins : ∀ (d : Db) (t : Transaction),
      (d.insertTransaction t).retrieveMember r2.member_id =
        d.retrieveMember r2.member_id := fun d t => rfl
  refine ⟨by rw [himp],
    by rw [himp]; simp [Db.insertTransaction, Db.updateMember], ?_⟩
  rw [himp]
  refine retrieveMember_updateMember_same _ r2.member_id m2 _ ?_ rfl
  rw [hins, retrieveMember_updateMember_ne _ _ _ hne1, hins]
  exact hm2

/-- First (catch-all) member of the zero-amount witness scenario. -/
def catchMember1 : Member :=
  { splitMember1 with id := 1, name := "CA" }

/-- Second member of the zero-amount witness scenario. -/
def catchMember2 : Member :=
  { splitMember1 with id := 2, name := "CB" }

/-- Database with two no-split rules for the same IBAN. -/
def catchDb : Db :=
  ⟨[catchMember1, catchMember2], [],
    [{ member_id := 1, iban := "DE5", split_amount := none,
       match_subject := none },
     { member_id := 2, iban := "DE5", split_amount := none,
       match_subject := none }]⟩

/-- Bank transaction of the zero-amount witness scenario. -/
def catchTx : BankTransaction :=
  { num := 7, date := ⟨2023, 6, 1⟩, name := "CA", iban := "DE5",
    amount := 40, subject := "beitrag" }

/-- Witness for C10: the second catch-all rule's member receives a posted
transaction of amount 0 with the watermark still advanced. -/
theorem C10_zero_amount_after_catch_all_witness :
    (catchTx.importTransaction catchDb).2 = Except.ok () ∧
    (catchTx.importTransaction catchDb).1.transactions =
      catchDb.transactions ++
        [{ id := 0, member_id := 1, date := catchTx.date,
           account_name := catchTx.name, amount := catchTx.amount,
           description := catchTx.subject },
         { id := 0, member_id := 2, date := catchTx.date,
           account_name := catchTx.name, amount := 0,
           description := catchTx.subject }] ∧
    (catchTx.importTransaction catchDb).1.retrieveMember 2 =
      some { catchMember2 with
        last_bank_transaction_at := catchTx.date,
        last_bank_transaction_number := catchTx.num } :=
  C10_zero_amount_after_catch_all catchDb catchTx
    { member_id := 1, iban := "DE5", split_amount := none,
      match_subject := none }
    { member_id := 2, iban := "DE5", split_amount := none,
      match_subject := none }
    catchMember1 catchMember2
    (by decide) (by decide) (by decide) (by decide) (by decide)
    (by decide) (by decide) (by decide) (by decide) (by decide)

end Discordia
